import Mathlib

/-!
Verification of the Casus companion browser extension.

The development shallow-embeds the two cores of the extension:

* the polling / badge logic of the background context
  (class OnlineTracker, src/background.js), and
* the preference-driven styling pass of the content context
  (classes StyleManager and PreferenceStyler, src/script.js).

JS strings are Lean String, possibly-undefined JS values are Option,
DOM class lists are List String (DOMTokenList is an ordered set of
tokens), and the style attribute of an element is Option String.
A raised TypeError is represented by an explicit error flag; DOM
mutation is explicit state passing.
-/

namespace Casus

/-! ### JS string primitives

The source calls String.prototype.trim and relies on implicit JS
numeric coercion.  Lean core String.trim is not kernel-reducible, so
the same semantics (strip leading and trailing whitespace) is defined
structurally over the character list. -/

/-- JS String.prototype.trim: strip leading and trailing whitespace. -/
def jsTrim (s : String) : String :=
  ((s.data.dropWhile Char.isWhitespace).reverse.dropWhile Char.isWhitespace).reverse.asString

/-- Value of a list of decimal digit characters, most significant first. -/
def digitsVal (l : List Char) : Nat :=
  l.foldl (fun a c => 10 * a + (c.toNat - 48)) 0

/-- JS ToNumber on a trimmed character list, restricted to the value
domain that can actually reach the badge logic: the empty string is 0,
an optionally signed decimal numeral has its usual value, and every
other string behaves as NaN (encoded as none). -/
def jsStrToNumber : List Char → Option Int
  | [] => some 0
  | '-' :: rest =>
      if rest ≠ [] ∧ rest.all Char.isDigit then some (-(digitsVal rest : Int)) else none
  | '+' :: rest =>
      if rest ≠ [] ∧ rest.all Char.isDigit then some ((digitsVal rest : Int)) else none
  | l =>
      if l ≠ [] ∧ l.all Char.isDigit then some ((digitsVal l : Int)) else none

/-- JS ToNumber of a string (whitespace is trimmed first, as in JS). -/
def jsToNumber (s : String) : Option Int :=
  jsStrToNumber (jsTrim s).data

/-- JS template-literal interpolation of a possibly-undefined value:
undefined prints as the literal text "undefined". -/
def jsStr : Option String → String
  | some s => s
  | none => "undefined"

/-- JS truthiness of a possibly-undefined string: undefined and the
empty string are falsy, every other string is truthy. -/
def jsTruthyStr : Option String → Bool
  | some s => decide (s ≠ "")
  | none => false

/-! ### Background context: class OnlineTracker (src/background.js) -/

namespace OnlineTracker

/-- The three visual badge attributes the tracker sets on the toolbar
icon (badge text, badge background color, badge text color). -/
structure Badge where
  text : String
  backgroundColor : String
  textColor : String
deriving DecidableEq, Repr

/-- Outcome of the remote fetch in fetchOnlineNotifications
(background.js:129-141): the transport may fail, the response may be
non-success (response.ok false, turned into a thrown error that the
local catch swallows), or the fetch succeeds and yields a page.  The
page is represented by the textContent of the first element matching
the notification selector, none when no element matches. -/
inductive FetchOutcome
  | transportError
  | httpError
  | success (page : Option String)
deriving DecidableEq, Repr

/-- parseCount (background.js:148-153): the trimmed textContent of the
badge element, with "X" when the element is absent or the trimmed text
is empty (the JS expression is element?.textContent.trim() || "X"). -/
def parseCount (page : Option String) : String :=
  match page with
  | none => "X"
  | some t => if jsTrim t = "" then "X" else jsTrim t

/-- fetchOnlineNotifications (background.js:129-141): returns the
parsed count, or null after logging when the transport fails or the
response is non-success.  The second component records whether the
catch block logged an error; the catch never rethrows. -/
def fetchOnlineNotifications : FetchOutcome → Option String × Bool
  | .transportError => (none, true)
  | .httpError => (none, true)
  | .success page => (some (parseCount page), false)

/-- The JS comparison count < 1 of updateBadge, where count is a
string or null: null coerces to 0, strings through ToNumber, and a NaN
comparison is false. -/
def jsLtOne : Option String → Bool
  | none => true
  | some s =>
      match jsToNumber s with
      | some v => decide (v < 1)
      | none => false

/-- updateBadge (background.js:159-167): text is empty when the count
compares below 1, otherwise the count itself (with "?" for a falsy
count); the background color is the neutral gray "#555" exactly when
the text is the marker "X", and the alert red "#d90000" otherwise;
the text color is always white. -/
def updateBadge (count : Option String) : Badge :=
  let text :=
    if jsLtOne count then ""
    else
      match count with
      | none => "?"
      | some s => if s = "" then "?" else s
  { text := text
    backgroundColor := if text = "X" then "#555" else "#d90000"
    textColor := "#fff" }

/-- Observable outcome of one refresh invocation: the badge update it
performed, if any, and whether a fetch error was logged.  refresh
itself never throws: the only failure path is the internal catch of
fetchOnlineNotifications, which returns null. -/
structure RefreshOutcome where
  badge : Option Badge
  logged : Bool
deriving DecidableEq, Repr

/-- refresh (background.js:172-177): fetch the count and update the
badge only when the fetched count is truthy. -/
def refresh (o : FetchOutcome) : RefreshOutcome :=
  let r := fetchOnlineNotifications o
  { badge := if jsTruthyStr r.1 then some (updateBadge r.1) else none
    logged := r.2 }

/-- One entry of the browser storage change record: the old and new
value of the refreshRate key. -/
structure RateChange where
  oldValue : Option Nat
  newValue : Nat
deriving DecidableEq, Repr

/-- The changes object delivered to the storage.sync.onChanged
listener, restricted to the one key the listener inspects. -/
structure StorageChanges where
  refreshRate : Option RateChange
deriving DecidableEq, Repr

/-- Host-service calls the background handlers can emit, as an effect
trace: clearing or creating the named alarm, invoking refresh, and
opening a tab. -/
inductive Effect
  | alarmClear (name : String)
  | alarmCreate (name : String) (periodInMinutes : Nat)
  | refreshCall
  | createTab (url : String)
deriving DecidableEq, Repr

/-- Whether an effect is an alarm creation with the given period. -/
def isAlarmCreateWith (p : Nat) : Effect → Bool
  | .alarmCreate _ q => decide (q = p)
  | _ => false

/-- Whether an effect is an invocation of refresh. -/
def isRefreshCall : Effect → Bool
  | .refreshCall => true
  | _ => false

/-- createOrUpdateAlarm (background.js:221-224): clear the autoRefresh
alarm, then create it again with the given period in minutes. -/
def createOrUpdateAlarm (refreshRate : Nat) : List Effect :=
  [.alarmClear "autoRefresh", .alarmCreate "autoRefresh" refreshRate]

/-- The storage.sync.onChanged listener installed by init
(background.js:210-214): when the change record mentions refreshRate,
reschedule with its new value; it calls nothing else. -/
def onStorageSyncChanged (changes : StorageChanges) : List Effect :=
  match changes.refreshRate with
  | some ch => createOrUpdateAlarm ch.newValue
  | none => []

end OnlineTracker

/-! ### Content context: classes StyleManager and PreferenceStyler
(src/script.js)

The StyleManager instance owned by the styler is represented by its
tracked rule list (cssRules); insertCSSRules only re-synchronizes the
dedicated style element with that list, so the observable state of the
manager is the list itself.  The engine state bundles it with the
class-minting counter of PreferenceStyler. -/

namespace PreferenceStyler

/-- A DOM element as the styling pass observes it: its class token
list and its style attribute (none when the attribute is unset). -/
structure Elem where
  classes : List String
  style : Option String
deriving DecidableEq, Repr

/-- One dl.row-item row.  item is the row element itself; box records
whether a .responsive-hide.left-box descendant exists and, inside it,
the textContent of the first a:not([class]) anchor (none when no such
anchor exists); title is the .topictitle descendant, icon the i.icon
descendant, each none when absent. -/
structure Row where
  item : Elem
  box : Option (Option String)
  title : Option Elem
  icon : Option Elem
deriving DecidableEq, Repr

/-- The preference map read from storage: the four per-topic tables
topics, modes, icons and colors, each keyed by theme name, with none
for an absent entry (the JS lookups are preferences.topics?.[name]
and so on). -/
structure Preferences where
  topics : String → Option String
  modes : String → Option String
  icons : String → Option String
  colors : String → Option String

/-- Engine state: the minting counter (this.index) and the rule list
of the owned StyleManager (this.styleManager.cssRules). -/
structure StylerState where
  index : Nat
  cssRules : List String
deriving DecidableEq, Repr

/-- PreferenceStyler.CONFIG.CSS.BASE: the fixed muted rule installed
at construction. -/
def BASE_CSS : String := ".casus-no-post \x7b opacity: 0.33; \x7d"

/-- PreferenceStyler.CONFIG.CSS.SHADOW: the text-legibility shadow. -/
def SHADOW : String :=
  "text-shadow: 1px 0 0 #000,-1px 0 0 #000,0 1px 0 #000,0 -1px 0 #000;"

/-- State after the constructor (script.js:80-85): counter 0 and the
single base rule installed. -/
def initState : StylerState := { index := 0, cssRules := [BASE_CSS] }

/-- DOMTokenList.add: append the token unless already present. -/
def addToken (l : List String) (t : String) : List String :=
  if t ∈ l then l else l ++ [t]

/-- DOMTokenList.replace: when the old token is present, rewrite every
occurrence of it to the new token (token lists hold each token at most
once); otherwise leave the list unchanged. -/
def replaceToken (l : List String) (old new : String) : List String :=
  if old ∈ l then l.map (fun c => if c = old then new else c) else l

/-- addClass (script.js:153-158): mint the class name
casus-(mode)-(index), bump the counter, and register via
styleManager.addRule the rule that sets background-color to the color
for every mode except color-title, which sets color directly.  mode
and color arrive as raw JS values and are interpolated into the
template literal (undefined prints as "undefined"); topic is accepted
and unused, as in the source. -/
def addClass (s : StylerState) (topic mode color : Option String) :
    String × StylerState :=
  let className := "casus-" ++ jsStr mode ++ "-" ++ Nat.repr s.index
  let ruleType := if mode = some "color-title" then "" else "background-"
  (className,
    { index := s.index + 1
      cssRules :=
        s.cssRules ++
          ["." ++ className ++ " \x7b " ++ ruleType ++ "color: " ++ jsStr color ++ "; \x7d"] })

/-- changeDisplay (script.js:141-144): set the style attribute of the
icon to the color plus the optional shadow, then add the class to the
target element.  The icon is dereferenced first and without a null
check, so a missing icon raises a TypeError before the target is
touched; none encodes that raise. -/
def changeDisplay (target : Elem) (icon : Option Elem) (className : String)
    (color : Option String) (shadow : String) : Option (Elem × Elem) :=
  match icon with
  | none => none
  | some ic =>
      some
        ({ target with classes := addToken target.classes className },
         { ic with style := some ("color: " ++ jsStr color ++ "; " ++ shadow) })

/-- The visibility dispatch of the row handler (script.js:108-125):
returns the updated row element, title, icon, engine state, and a flag
recording a TypeError raised inside changeDisplay. -/
def visibilityStep (s : StylerState) (item title : Elem) (icon : Option Elem)
    (topic mode color : Option String) :
    Elem × Elem × Option Elem × StylerState × Bool :=
  if topic = some "hidden" then
    ({ item with classes := addToken item.classes "casus-no-post" }, title, icon, s, false)
  else if topic = some "highlight" then
    let minted := addClass s topic mode color
    if mode = some "full-line" then
      match changeDisplay item icon minted.1 color SHADOW with
      | none => (item, title, icon, minted.2, true)
      | some (item', icon') => (item', title, some icon', minted.2, false)
    else if mode = some "highlight-title" then
      match changeDisplay title icon minted.1 color SHADOW with
      | none => (item, title, icon, minted.2, true)
      | some (title', icon') => (item, title', some icon', minted.2, false)
    else if mode = some "color-title" then
      match changeDisplay title icon minted.1 color "" with
      | none => (item, title, icon, minted.2, true)
      | some (title', icon') => (item, title', some icon', minted.2, false)
    else
      (item, { title with classes := addToken title.classes minted.1 }, icon, minted.2, false)
  else
    (item, title, icon, s, false)

/-- The icon treatment closing the row handler (script.js:126-129):
when an icon override is configured, swap fa-file for it; then,
unconditionally, swap icon-md for icon-lg.  Both lines dereference the
icon without a null check, so an absent icon raises a TypeError,
reported in the second component. -/
def iconTreatment (iconPref : Option String) (icon : Option Elem) :
    Option Elem × Bool :=
  match icon with
  | none => (none, true)
  | some ic =>
      let ic1 :=
        if jsTruthyStr iconPref then
          { ic with classes := replaceToken ic.classes "fa-file" (jsStr iconPref) }
        else ic
      (some { ic1 with classes := replaceToken ic1.classes "icon-md" "icon-lg" }, false)

/-- Result of processing one row: the row after its mutations, the
engine state, and whether a TypeError was raised.  On a raise the row
holds exactly the mutations performed before the throwing line. -/
structure RowResult where
  row : Row
  state : StylerState
  error : Bool
deriving DecidableEq, Repr

/-- The applyStyles body for one row (script.js:91-130): locate box,
title and the thematic anchor, skipping the row when any is missing;
resolve the four preference entries for the trimmed theme name; run
the visibility dispatch and then the icon treatment. -/
def processRow (pref : Preferences) (s : StylerState) (row : Row) : RowResult :=
  match row.box, row.title with
  | some (some thematicText), some title =>
      let themeName := jsTrim thematicText
      match visibilityStep s row.item title row.icon (pref.topics themeName)
          (pref.modes themeName) (pref.colors themeName) with
      | (item', title', icon', s', true) =>
          { row := { row with item := item', title := some title', icon := icon' }
            state := s', error := true }
      | (item', title', icon', s', false) =>
          let it := iconTreatment (pref.icons themeName) icon'
          { row := { row with item := item', title := some title', icon := it.1 }
            state := s', error := it.2 }
  | _, _ => { row := row, state := s, error := false }

/-- applyStyles (script.js:90-131) over the row list in document
order.  A TypeError raised while processing a row propagates out of
the forEach: the remaining rows stay untouched, while mutations
already performed persist. -/
def applyRows (pref : Preferences) : StylerState → List Row → List Row × StylerState × Bool
  | s, [] => ([], s, false)
  | s, r :: rs =>
      let res := processRow pref s r
      if res.error then (res.row :: rs, res.state, true)
      else
        let rest := applyRows pref res.state rs
        (res.row :: rest.1, rest.2.1, rest.2.2)

/-- A sequence of addClass calls on one engine instance, each with its
(topic, mode, color) arguments: returns the minted class names in
order and the final state. -/
def mintAll (s : StylerState) :
    List (Option String × Option String × Option String) → List String × StylerState
  | [] => ([], s)
  | c :: cs =>
      let minted := addClass s c.1 c.2.1 c.2.2
      let rest := mintAll minted.2 cs
      (minted.1 :: rest.1, rest.2)

/-- Theme-name resolution of a row, none when the row is skipped by
the locate step (missing box, title or thematic anchor). -/
def rowTheme (row : Row) : Option String :=
  match row.box, row.title with
  | some (some th), some _ => some (jsTrim th)
  | _, _ => none

/-- Visibility the preference map assigns to a row: the topics entry
of its resolved theme name, none for skipped rows and absent entries
alike. -/
def rowVisibility (pref : Preferences) (row : Row) : Option String :=
  match rowTheme row with
  | some name => pref.topics name
  | none => none

/-- The class name addClass mints for a given raw mode at a given
counter value (the template literal casus-(mode)-(index)). -/
def className (mode : Option String) (i : Nat) : String :=
  "casus-" ++ jsStr mode ++ "-" ++ Nat.repr i

/-- An always-empty preference table. -/
def noEntry : String → Option String := fun _ => none

/-- The preference map with no entries at all (fresh storage). -/
def emptyPref : Preferences := ⟨noEntry, noEntry, noEntry, noEntry⟩

/-- Topics table assigning hidden to the theme Rumeurs. -/
def topicsHiddenR : String → Option String :=
  fun n => if n = "Rumeurs" then some "hidden" else none

/-- Preference map hiding Rumeurs, with mode full-line and one color. -/
def prefHiddenA : Preferences :=
  ⟨topicsHiddenR, fun n => if n = "Rumeurs" then some "full-line" else none,
    noEntry, fun n => if n = "Rumeurs" then some "#111111" else none⟩

/-- Preference map hiding Rumeurs, same topics and icons tables as
prefHiddenA but different mode and color entries. -/
def prefHiddenB : Preferences :=
  ⟨topicsHiddenR, fun n => if n = "Rumeurs" then some "color-title" else none,
    noEntry, fun n => if n = "Rumeurs" then some "#222222" else none⟩

/-- Preference map highlighting Rumeurs in full-line mode. -/
def prefHighlightR : Preferences :=
  ⟨fun n => if n = "Rumeurs" then some "highlight" else none,
    fun n => if n = "Rumeurs" then some "full-line" else none,
    noEntry,
    fun n => if n = "Rumeurs" then some "#e4dcbd" else none⟩

/-- A complete row for the theme Rumeurs: box, thematic anchor, title
and status icon all present, the icon carrying the original fa-file
and the medium size class. -/
def rowVisibleIcon : Row :=
  ⟨⟨["row-item"], none⟩, some (some "Rumeurs"), some ⟨["topictitle"], none⟩,
    some ⟨["icon", "fa-file", "icon-md"], none⟩⟩

/-- A row with box, thematic anchor and title present but no status
icon element. -/
def rowNoIcon : Row :=
  ⟨⟨["row-item"], none⟩, some (some "Rumeurs"), some ⟨["topictitle"], none⟩, none⟩

/-- A row with no box container. -/
def rowNoBox : Row :=
  ⟨⟨["row-item"], none⟩, none, some ⟨["topictitle"], none⟩, some ⟨["icon"], none⟩⟩

/-- The two-row tree of the idempotence witness after one styling
pass under prefHiddenA: the Rumeurs row muted with its icon size
upgraded, the box-less row untouched. -/
def rowsHiddenOut : List Row :=
  [⟨⟨["row-item", "casus-no-post"], none⟩, some (some "Rumeurs"),
    some ⟨["topictitle"], none⟩, some ⟨["icon", "fa-file", "icon-lg"], none⟩⟩,
   rowNoBox]

end PreferenceStyler

/-! ### Support lemmas on the decimal printer behind Nat.repr -/

theorem toDigitsCore_append (b : Nat) :
    ∀ (f n : Nat) (ds : List Char),
      Nat.toDigitsCore b f n ds = Nat.toDigitsCore b f n [] ++ ds := by
  intro f
  induction f with
  | zero => intro n ds; simp [Nat.toDigitsCore]
  | succ f ih =>
      intro n ds
      simp only [Nat.toDigitsCore]
      by_cases h : n / b = 0
      · simp [h]
      · simp only [h, if_false]
        rw [ih (n / b) (Nat.digitChar (n % b) :: ds), ih (n / b) [Nat.digitChar (n % b)]]
        simp

theorem toDigitsCore_fuel (b : Nat) (hb : 2 ≤ b) :
    ∀ (n f f' : Nat) (ds : List Char), n < f → n < f' →
      Nat.toDigitsCore b f n ds = Nat.toDigitsCore b f' n ds := by
  intro n
  induction n using Nat.strong_induction_on with
  | _ n ih =>
      intro f f' ds hf hf'
      match f, f' with
      | g + 1, g' + 1 =>
        simp only [Nat.toDigitsCore]
        by_cases h : n / b = 0
        · simp [h]
        · simp only [h, if_false]
          have hn : 0 < n := by
            rcases Nat.eq_zero_or_pos n with rfl | hp
            · exact absurd (Nat.zero_div b) h
            · exact hp
          have hlt : n / b < n := Nat.div_lt_self hn (by omega)
          exact ih (n / b) hlt g g' _ (by omega) (by omega)

theorem toDigits_ten_step (n : Nat) :
    Nat.toDigits 10 n =
      if n < 10 then [Nat.digitChar n]
      else Nat.toDigits 10 (n / 10) ++ [Nat.digitChar (n % 10)] := by
  show Nat.toDigitsCore 10 (n + 1) n [] = _
  simp only [Nat.toDigitsCore]
  by_cases h : n < 10
  · have h0 : n / 10 = 0 := Nat.div_eq_of_lt h
    simp [h, h0, Nat.mod_eq_of_lt h]
  · have h0 : n / 10 ≠ 0 := by
      have : 10 ≤ n := le_of_not_lt h
      have : 1 ≤ n / 10 := (Nat.le_div_iff_mul_le (by norm_num)).mpr (by omega)
      omega
    simp only [h0, if_false, h, if_false]
    rw [toDigitsCore_append 10 n (n / 10) [Nat.digitChar (n % 10)]]
    congr 1
    exact toDigitsCore_fuel 10 (by norm_num) (n / 10) n (n / 10 + 1) []
      (lt_of_lt_of_le (Nat.div_lt_self (by omega) (by norm_num)) (by omega))
      (Nat.lt_succ_self _)

theorem digitChar_isDigit : ∀ m < 10, (Nat.digitChar m).isDigit = true := by decide

theorem digitChar_val : ∀ m < 10, (Nat.digitChar m).toNat - 48 = m := by decide

theorem toDigits_ten_isDigit (n : Nat) :
    ∀ c ∈ Nat.toDigits 10 n, c.isDigit = true := by
  induction n using Nat.strong_induction_on with
  | _ n ih =>
      rw [toDigits_ten_step n]
      by_cases h : n < 10
      · simp only [h, if_true, List.mem_singleton]
        rintro c rfl
        exact digitChar_isDigit n h
      · simp only [h, if_false]
        intro c hc
        rcases List.mem_append.mp hc with h1 | h2
        · exact ih (n / 10) (Nat.div_lt_self (by omega) (by norm_num)) c h1
        · rw [List.mem_singleton.mp h2]
          exact digitChar_isDigit (n % 10) (Nat.mod_lt n (by norm_num))

theorem digitsVal_append (l : List Char) (c : Char) :
    digitsVal (l ++ [c]) = 10 * digitsVal l + (c.toNat - 48) := by
  simp [digitsVal, List.foldl_append]

theorem digitsVal_toDigits (n : Nat) : digitsVal (Nat.toDigits 10 n) = n := by
  induction n using Nat.strong_induction_on with
  | _ n ih =>
      rw [toDigits_ten_step n]
      by_cases h : n < 10
      · simp only [h, if_true]
        have hv := digitChar_val n h
        simp [digitsVal, hv]
      · simp only [h, if_false, digitsVal_append]
        rw [ih (n / 10) (Nat.div_lt_self (by omega) (by norm_num))]
        rw [digitChar_val (n % 10) (Nat.mod_lt n (by norm_num))]
        omega

theorem natRepr_inj {m n : Nat} (h : Nat.repr m = Nat.repr n) : m = n := by
  have hd : Nat.toDigits 10 m = Nat.toDigits 10 n := congrArg String.data h
  calc m = digitsVal (Nat.toDigits 10 m) := (digitsVal_toDigits m).symm
    _ = digitsVal (Nat.toDigits 10 n) := by rw [hd]
    _ = n := digitsVal_toDigits n

theorem natRepr_no_dash (n : Nat) : '-' ∉ (Nat.repr n).data := by
  intro hmem
  have hdig : ('-').isDigit = true := toDigits_ten_isDigit n '-' hmem
  exact absurd hdig (by decide)

theorem append_dash_eq :
    ∀ (x₁ : List Char) {y₁ : List Char} (x₂ : List Char) {y₂ : List Char},
      '-' ∉ x₁ → '-' ∉ x₂ → x₁ ++ '-' :: y₁ = x₂ ++ '-' :: y₂ → x₁ = x₂ ∧ y₁ = y₂ := by
  intro x₁
  induction x₁ with
  | nil =>
      intro y₁ x₂ y₂ _ h2 h
      cases x₂ with
      | nil => simpa using h
      | cons c t =>
          simp only [List.nil_append, List.cons_append, List.cons.injEq] at h
          exact absurd (h.1 ▸ List.mem_cons_self c t) h2
  | cons c t ih =>
      intro y₁ x₂ y₂ h1 h2 h
      cases x₂ with
      | nil =>
          simp only [List.nil_append, List.cons_append, List.cons.injEq] at h
          exact absurd (h.1 ▸ List.mem_cons_self c t) h1
      | cons c' t' =>
          simp only [List.cons_append, List.cons.injEq] at h
          have ht := ih t' (fun hm => h1 (List.mem_cons_of_mem c hm))
            (fun hm => h2 (List.mem_cons_of_mem c' hm)) h.2
          exact ⟨by rw [h.1, ht.1], ht.2⟩

namespace PreferenceStyler

/-! ### Uniqueness of minted class names -/

theorem className_inj_index {m₁ m₂ : Option String} {i₁ i₂ : Nat}
    (h : className m₁ i₁ = className m₂ i₂) : i₁ = i₂ := by
  have hd : ("casus-".data ++ (jsStr m₁).data ++ ['-']) ++ (Nat.repr i₁).data
      = ("casus-".data ++ (jsStr m₂).data ++ ['-']) ++ (Nat.repr i₂).data := by
    have := congrArg String.data h
    simpa [className, String.data_append, List.append_assoc] using this
  have hd' : ("casus-".data ++ (jsStr m₁).data) ++ '-' :: (Nat.repr i₁).data
      = ("casus-".data ++ (jsStr m₂).data) ++ '-' :: (Nat.repr i₂).data := by
    simpa [List.append_assoc] using hd
  have hrev : (Nat.repr i₁).data.reverse ++ '-' :: ("casus-".data ++ (jsStr m₁).data).reverse
      = (Nat.repr i₂).data.reverse ++ '-' :: ("casus-".data ++ (jsStr m₂).data).reverse := by
    have := congrArg List.reverse hd'
    simpa [List.reverse_append, List.append_assoc] using this
  have hnd₁ : '-' ∉ (Nat.repr i₁).data.reverse := by
    simpa [List.mem_reverse] using natRepr_no_dash i₁
  have hnd₂ : '-' ∉ (Nat.repr i₂).data.reverse := by
    simpa [List.mem_reverse] using natRepr_no_dash i₂
  have hdig : (Nat.repr i₁).data = (Nat.repr i₂).data := by
    have := (append_dash_eq _ _ hnd₁ hnd₂ hrev).1
    simpa using congrArg List.reverse this
  calc i₁ = digitsVal (Nat.toDigits 10 i₁) := (digitsVal_toDigits i₁).symm
    _ = digitsVal (Nat.toDigits 10 i₂) := by
        show digitsVal (Nat.repr i₁).data = digitsVal (Nat.repr i₂).data
        rw [hdig]
    _ = i₂ := digitsVal_toDigits i₂

theorem addClass_fst (s : StylerState) (topic mode color : Option String) :
    (addClass s topic mode color).1 = className mode s.index := rfl

theorem addClass_snd_index (s : StylerState) (topic mode color : Option String) :
    (addClass s topic mode color).2.index = s.index + 1 := rfl

theorem mintAll_names (s : StylerState)
    (cs : List (Option String × Option String × Option String)) :
    ∀ name ∈ (mintAll s cs).1, ∃ m i, s.index ≤ i ∧ name = className m i := by
  induction cs generalizing s with
  | nil => simp [mintAll]
  | cons c cs ih =>
      intro name hname
      simp only [mintAll, List.mem_cons] at hname
      rcases hname with rfl | hname
      · exact ⟨c.2.1, s.index, le_refl _, rfl⟩
      · obtain ⟨m, i, hle, heq⟩ := ih (addClass s c.1 c.2.1 c.2.2).2 name hname
        exact ⟨m, i, by
          have : s.index + 1 ≤ i := hle
          omega, heq⟩

theorem mintAll_nodup (s : StylerState)
    (cs : List (Option String × Option String × Option String)) :
    (mintAll s cs).1.Nodup := by
  induction cs generalizing s with
  | nil => simp [mintAll]
  | cons c cs ih =>
      simp only [mintAll, List.nodup_cons]
      refine ⟨?_, ih _⟩
      intro hmem
      obtain ⟨m, i, hle, heq⟩ := mintAll_names _ cs _ hmem
      have heq' : className c.2.1 s.index = className m i := heq
      have hidx : s.index = i := className_inj_index heq'
      have : s.index + 1 ≤ i := hle
      omega

theorem mintAll_fst_length (s : StylerState)
    (cs : List (Option String × Option String × Option String)) :
    (mintAll s cs).1.length = cs.length := by
  induction cs generalizing s with
  | nil => simp [mintAll]
  | cons c cs ih => simp [mintAll, ih]

theorem mintAll_rules (s : StylerState)
    (cs : List (Option String × Option String × Option String)) :
    ∃ minted : List String,
      (mintAll s cs).2.cssRules = s.cssRules ++ minted ∧ minted.length = cs.length := by
  induction cs generalizing s with
  | nil => exact ⟨[], by simp [mintAll], rfl⟩
  | cons c cs ih =>
      obtain ⟨minted, hm, hlen⟩ := ih (addClass s c.1 c.2.1 c.2.2).2
      refine ⟨("." ++ className c.2.1 s.index ++ " \x7b " ++
          (if c.2.1 = some "color-title" then "" else "background-") ++
          "color: " ++ jsStr c.2.2 ++ "; \x7d") :: minted, ?_, by simp [hlen]⟩
      have : (addClass s c.1 c.2.1 c.2.2).2.cssRules
          = s.cssRules ++ ["." ++ className c.2.1 s.index ++ " \x7b " ++
            (if c.2.1 = some "color-title" then "" else "background-") ++
            "color: " ++ jsStr c.2.2 ++ "; \x7d"] := rfl
      simp only [mintAll]
      rw [hm, this]
      simp

/-! ### Token-list lemmas and idempotence of the non-highlight paths -/

theorem mem_addToken (l : List String) (t : String) : t ∈ addToken l t := by
  unfold addToken
  split
  · assumption
  · simp

theorem addToken_idem (l : List String) (t : String) :
    addToken (addToken l t) t = addToken l t := by
  unfold addToken
  split
  · simp
  · simp

theorem mem_replaceToken {x : String} {l : List String} {a b : String}
    (h : x ∈ replaceToken l a b) : x = b ∨ (x ∈ l ∧ x ≠ a) := by
  unfold replaceToken at h
  split at h
  · obtain ⟨y, hy, hxy⟩ := List.mem_map.mp h
    by_cases hya : y = a
    · left; rw [← hxy, if_pos hya]
    · right
      rw [← hxy, if_neg hya]
      exact ⟨hy, hya⟩
  · rename_i ha
    right
    exact ⟨h, fun hx => ha (hx ▸ h)⟩

theorem replaceToken_of_not_mem {l : List String} {a : String} (b : String)
    (h : a ∉ l) : replaceToken l a b = l := by
  unfold replaceToken
  exact if_neg h

theorem replaceToken_self (l : List String) (a : String) :
    replaceToken l a a = l := by
  unfold replaceToken
  split
  · have hmap : l.map (fun c => if c = a then a else c) = l.map id := by
      apply List.map_congr_left
      intro x _
      split
      · rename_i hx; rw [hx]; rfl
      · rfl
    rw [hmap, List.map_id]
  · rfl

theorem not_mem_replaceToken {l : List String} {a b : String} (hab : a ≠ b) :
    a ∉ replaceToken l a b := by
  intro h
  rcases mem_replaceToken h with h1 | ⟨_, h2⟩
  · exact hab h1
  · exact h2 rfl

theorem replaceToken_idem (l : List String) (a b : String) :
    replaceToken (replaceToken l a b) a b = replaceToken l a b := by
  by_cases hab : a = b
  · rw [hab, replaceToken_self, replaceToken_self]
  · exact replaceToken_of_not_mem b (not_mem_replaceToken hab)

theorem iconTreatment_idem (p : Option String) (ic : Elem) :
    iconTreatment p ((iconTreatment p (some ic)).1) = iconTreatment p (some ic) := by
  cases hb : jsTruthyStr p with
  | true =>
      have hfa : replaceToken
          (replaceToken (replaceToken ic.classes "fa-file" (jsStr p)) "icon-md" "icon-lg")
          "fa-file" (jsStr p)
          = replaceToken (replaceToken ic.classes "fa-file" (jsStr p)) "icon-md" "icon-lg" := by
        by_cases hv : jsStr p = "fa-file"
        · rw [hv, replaceToken_self]
        · apply replaceToken_of_not_mem
          intro hmem
          rcases mem_replaceToken hmem with h1 | ⟨hmem1, _⟩
          · exact absurd h1.symm (by decide)
          rcases mem_replaceToken hmem1 with h2 | ⟨_, h3⟩
          · exact hv h2.symm
          · exact h3 rfl
      have hmd : ("icon-md" : String) ∉ replaceToken
          (replaceToken ic.classes "fa-file" (jsStr p)) "icon-md" "icon-lg" :=
        not_mem_replaceToken (by decide)
      simp [iconTreatment, hb, hfa, replaceToken_of_not_mem "icon-lg" hmd]
  | false =>
      have hmd : ("icon-md" : String) ∉ replaceToken ic.classes "icon-md" "icon-lg" :=
        not_mem_replaceToken (by decide)
      simp [iconTreatment, hb, replaceToken_of_not_mem "icon-lg" hmd]

theorem iconTreatment_err (p : Option String) (ic : Elem) :
    (iconTreatment p (some ic)).2 = false := by
  cases hb : jsTruthyStr p <;> simp [iconTreatment, hb]

theorem processRow_idem (pref : Preferences) (s : StylerState) (row : Row)
    (hok : rowVisibility pref row ≠ some "highlight")
    (hsucc : (processRow pref s row).error = false) :
    (processRow pref s row).state = s ∧
    processRow pref s (processRow pref s row).row = processRow pref s row := by
  obtain ⟨item, box, title, icon⟩ := row
  rcases box with _ | box
  · simp [processRow]
  rcases box with _ | th
  · simp [processRow]
  rcases title with _ | t
  · simp [processRow]
  have hvis : pref.topics (jsTrim th) ≠ some "highlight" := by
    simpa [rowVisibility, rowTheme] using hok
  rcases icon with _ | ic
  · exfalso
    by_cases h1 : pref.topics (jsTrim th) = some "hidden"
    · simp [processRow, visibilityStep, iconTreatment, h1] at hsucc
    · simp [processRow, visibilityStep, iconTreatment, h1, hvis] at hsucc
  · by_cases h1 : pref.topics (jsTrim th) = some "hidden"
    · constructor
      · simp [processRow, visibilityStep, h1, iconTreatment_err]
      · simp [processRow, visibilityStep, h1, iconTreatment_err, iconTreatment_idem,
          addToken_idem]
    · constructor
      · simp [processRow, visibilityStep, h1, hvis, iconTreatment_err]
      · simp [processRow, visibilityStep, h1, hvis, iconTreatment_err, iconTreatment_idem]

theorem applyRows_idem (pref : Preferences) :
    ∀ (s : StylerState) (rows out : List Row) (sOut : StylerState),
      (∀ row ∈ rows, rowVisibility pref row ≠ some "highlight") →
      applyRows pref s rows = (out, sOut, false) →
      sOut = s ∧ applyRows pref s out = (out, s, false) := by
  intro s rows
  induction rows generalizing s with
  | nil =>
      intro out sOut _ happ
      simp only [applyRows, Prod.mk.injEq] at happ
      obtain ⟨h1, h2, -⟩ := happ
      subst h1 h2
      simp [applyRows]
  | cons r rs ih =>
      intro out sOut hok happ
      simp only [applyRows] at happ
      by_cases herr : (processRow pref s r).error = true
      · rw [if_pos herr] at happ
        have := congrArg (fun p => p.2.2) happ
        simp at this
      · have herr' : (processRow pref s r).error = false := by
          revert herr; cases (processRow pref s r).error <;> simp
        rw [if_neg herr] at happ
        obtain ⟨hstate, hre⟩ :=
          processRow_idem pref s r (hok r (List.mem_cons_self r rs)) herr'
        rw [hstate] at happ
        rcases hrs : applyRows pref s rs with ⟨out2, sOut2, err2⟩
        rw [hrs] at happ
        simp only [Prod.mk.injEq] at happ
        obtain ⟨hout, hsOut, herr2⟩ := happ
        subst herr2
        obtain ⟨hs2, hsecond⟩ :=
          ih s out2 sOut2 (fun row hr => hok row (List.mem_cons_of_mem r hr)) hrs
        subst hout hsOut hs2
        refine ⟨rfl, ?_⟩
        simp only [applyRows, hre, herr', hstate, hsecond]
        simp

end PreferenceStyler

/-- Adjacent literal pieces of the minted background rule merge into
the single literal of the rule shape stated by the spec. -/
theorem str_bg_merge (X Y : String) :
    X ++ " \x7b " ++ "background-" ++ "color: " ++ Y ++ "; \x7d"
      = X ++ " \x7b background-color: " ++ Y ++ "; \x7d" := by
  have h1 : ("background-" : String) ++ "color: " = "background-color: " := rfl
  have h2 : (" \x7b " : String) ++ "background-color: " = " \x7b background-color: " := rfl
  rw [String.append_assoc (X ++ " \x7b ") "background-" "color: ", h1,
    String.append_assoc X " \x7b " "background-color: ", h2]

/-- Adjacent literal pieces of the minted color rule merge into the
single literal of the rule shape stated by the spec. -/
theorem str_c_merge (X Y : String) :
    X ++ " \x7b " ++ "color: " ++ Y ++ "; \x7d"
      = X ++ " \x7b color: " ++ Y ++ "; \x7d" := by
  have h2 : (" \x7b " : String) ++ "color: " = " \x7b color: " := rfl
  rw [String.append_assoc X " \x7b " "color: ", h2]

/-! ### Claims -/

open OnlineTracker PreferenceStyler

/-- Claim C1, counterexample.  The claim states that a failed fetch
makes the badge show the unknown marker.  At the concrete input of a
transport failure, refresh performs no badge update at all (the fetch
helper returns null, which is falsy, so updateBadge is never called):
the badge update is none, not the unknown-marker badge, while the
error is indeed logged. -/
theorem claim_C1_cex :
    (refresh FetchOutcome.transportError).badge = none ∧
    (refresh FetchOutcome.transportError).badge ≠
      some ⟨"X", "#555", "#fff"⟩ ∧
    (refresh FetchOutcome.transportError).logged = true :=
  ⟨rfl, by decide, rfl⟩

/-- Claim C1, amended: for every refresh invocation in which the
remote fetch fails in transport or returns a non-success response, the
failure is logged and never thrown past the refresh boundary, and
refresh performs no badge update at all (the badge, and with it the
last displayed count, keeps its previous value; the unknown marker is
produced only by a successful fetch whose page lacks a nonempty count
element).  In the embedding the absence of a throw is the fact that
fetchOnlineNotifications returns a value (null) on the failure paths
instead of propagating the error. -/
theorem claim_C1 (o : FetchOutcome)
    (h : o = FetchOutcome.transportError ∨ o = FetchOutcome.httpError) :
    refresh o = ⟨none, true⟩ := by
  rcases h with rfl | rfl <;> rfl

/-- Claim C1 witness: the amended theorem applied to the non-success
response outcome. -/
theorem claim_C1_witness : refresh FetchOutcome.httpError = ⟨none, true⟩ :=
  claim_C1 _ (Or.inr rfl)

/-- Claim C2: the badge presentation satisfies the literal mapping
table.  The unknown count "X" produces the neutral marker "X" with the
gray background "#555" and white text; every count whose JS numeric
value is below 1 produces empty badge text with the alert background
"#d90000" and white text; every count whose JS numeric value is at
least 1 produces the count string itself (for a canonical count this
is the decimal string of the count) with the alert background and
white text. -/
theorem claim_C2 :
    updateBadge (some "X") = ⟨"X", "#555", "#fff"⟩ ∧
    (∀ (s : String) (v : Int), jsToNumber s = some v → v < 1 →
      updateBadge (some s) = ⟨"", "#d90000", "#fff"⟩) ∧
    (∀ (s : String) (v : Int), jsToNumber s = some v → 1 ≤ v →
      updateBadge (some s) = ⟨s, "#d90000", "#fff"⟩) := by
  refine ⟨by decide, ?_, ?_⟩
  · intro s v hv hlt
    have hlt' : jsLtOne (some s) = true := by
      simp [jsLtOne, hv, hlt]
    simp [updateBadge, hlt']
  · intro s v hv hge
    have hne : s ≠ "" := by
      rintro rfl
      have h0 : jsToNumber "" = some 0 := by decide
      rw [h0] at hv
      injection hv with hv
      omega
    have hnx : s ≠ "X" := by
      rintro rfl
      have h0 : jsToNumber "X" = none := by decide
      rw [h0] at hv
      exact Option.noConfusion hv
    have hlt' : jsLtOne (some s) = false := by
      simp [jsLtOne, hv]
      omega
    simp [updateBadge, hlt', hne, hnx]

/-- Claim C2 witness: the mapping at the literal counts 0 and 7 of the
table, obtained from the quantified cases. -/
theorem claim_C2_witness :
    updateBadge (some "0") = ⟨"", "#d90000", "#fff"⟩ ∧
    updateBadge (some "7") = ⟨"7", "#d90000", "#fff"⟩ :=
  ⟨claim_C2.2.1 "0" 0 (by decide) (by decide),
   claim_C2.2.2 "7" 7 (by decide) (by decide)⟩

/-- Claim C3: for every sequence of N addClass calls on one engine
instance started at construction, the N returned class names are
pairwise distinct, there are exactly N of them, and the rule registry
holds exactly the fixed base rule followed by the N rules authored by
minting. -/
theorem claim_C3 (cs : List (Option String × Option String × Option String)) :
    (mintAll initState cs).1.Nodup ∧
    (mintAll initState cs).1.length = cs.length ∧
    ∃ minted : List String,
      (mintAll initState cs).2.cssRules = [BASE_CSS] ++ minted ∧
      minted.length = cs.length := by
  refine ⟨mintAll_nodup _ _, mintAll_fst_length _ _, ?_⟩
  obtain ⟨minted, hm, hl⟩ := mintAll_rules initState cs
  exact ⟨minted, hm, hl⟩

/-- Claim C4: addClass returns the class name casus-(mode)-(i) at the
current counter value (the counter starts at 0 at construction), bumps
the counter, and registers exactly one rule setting background-color
for every mode other than color-title, and color for color-title; in
particular the two literal instances at "#abcdef". -/
theorem claim_C4 :
    (∀ (s : StylerState) (topic mode color : Option String),
        (addClass s topic mode color).1 =
          "casus-" ++ jsStr mode ++ "-" ++ Nat.repr s.index ∧
        (addClass s topic mode color).2.index = s.index + 1 ∧
        (mode ≠ some "color-title" →
          (addClass s topic mode color).2.cssRules = s.cssRules ++
            ["." ++ ("casus-" ++ jsStr mode ++ "-" ++ Nat.repr s.index) ++
              " \x7b background-color: " ++ jsStr color ++ "; \x7d"]) ∧
        (mode = some "color-title" →
          (addClass s topic mode color).2.cssRules = s.cssRules ++
            ["." ++ ("casus-" ++ jsStr mode ++ "-" ++ Nat.repr s.index) ++
              " \x7b color: " ++ jsStr color ++ "; \x7d"])) ∧
    initState.index = 0 ∧
    (addClass initState (some "highlight") (some "color-title") (some "#abcdef")).2.cssRules =
      [BASE_CSS, ".casus-color-title-0 \x7b color: #abcdef; \x7d"] ∧
    (addClass initState (some "highlight") (some "full-line") (some "#abcdef")).2.cssRules =
      [BASE_CSS, ".casus-full-line-0 \x7b background-color: #abcdef; \x7d"] := by
  refine ⟨fun s topic mode color => ⟨rfl, rfl, ?_, ?_⟩, rfl, by decide, by decide⟩
  · intro h
    simp [addClass, h]
    exact str_bg_merge ("." ++ ("casus-" ++ jsStr mode ++ "-" ++ Nat.repr s.index)) (jsStr color)
  · intro h
    simp [addClass, h]
    exact str_c_merge ("." ++ ("casus-" ++ jsStr (some "color-title") ++ "-" ++ Nat.repr s.index))
      (jsStr color)

/-- Claim C4 witness: the quantified part applied at the full-line
mode and the color of the end-to-end scenario, with the non-color-title
hypothesis discharged. -/
theorem claim_C4_witness :
    (addClass initState (some "highlight") (some "full-line") (some "#e4dcbd")).2.cssRules =
      [BASE_CSS, ".casus-full-line-0 \x7b background-color: #e4dcbd; \x7d"] :=
  ((claim_C4.1 initState (some "highlight") (some "full-line")
      (some "#e4dcbd")).2.2.1 (by decide)).trans (by decide)

/-- Claim C5, counterexample.  The claim states that a row resolving
to visibility visible is left completely untouched.  At the concrete
input of a visible row (no preference entries at all) whose icon
carries the classes icon, fa-file and icon-md, processing rewrites the
icon class list to icon, fa-file, icon-lg: the row is changed. -/
theorem claim_C5_cex :
    (processRow emptyPref initState rowVisibleIcon).row.icon =
      some ⟨["icon", "fa-file", "icon-lg"], none⟩ ∧
    rowVisibleIcon.icon = some ⟨["icon", "fa-file", "icon-md"], none⟩ ∧
    (processRow emptyPref initState rowVisibleIcon).row ≠ rowVisibleIcon := by
  refine ⟨by decide, rfl, by decide⟩

/-- Claim C5, amended: for every row whose topic resolves to
visibility visible (including absent preference entries) and whose
icon element is present, processing mints no class, leaves the row
element, the title and every style attribute untouched, and leaves the
engine state unchanged; the only mutation is the unconditional icon
treatment, which swaps fa-file for a configured icon override and
icon-md for icon-lg in the icon class list.  Moreover, for every row
whose visibility resolves to visible or hidden (or which is skipped),
changing the mode or color tables of the preference map does not
change the processing result at all. -/
theorem claim_C5 :
    (∀ (pref : Preferences) (s : StylerState) (item : Elem) (th : String)
        (title ic : Elem),
      pref.topics (jsTrim th) = none ∨ pref.topics (jsTrim th) = some "visible" →
      processRow pref s ⟨item, some (some th), some title, some ic⟩ =
        ⟨⟨item, some (some th), some title,
          some ⟨replaceToken
            (if jsTruthyStr (pref.icons (jsTrim th)) then
              replaceToken ic.classes "fa-file" (jsStr (pref.icons (jsTrim th)))
            else ic.classes) "icon-md" "icon-lg", ic.style⟩⟩, s, false⟩) ∧
    (∀ (p₁ p₂ : Preferences) (s : StylerState) (row : Row),
      p₁.topics = p₂.topics → p₁.icons = p₂.icons →
      (rowVisibility p₁ row = none ∨ rowVisibility p₁ row = some "visible" ∨
        rowVisibility p₁ row = some "hidden") →
      processRow p₁ s row = processRow p₂ s row) := by
  constructor
  · intro pref s item th title ic hvis
    cases hb : jsTruthyStr (pref.icons (jsTrim th)) <;>
      rcases hvis with h | h <;>
        simp [processRow, visibilityStep, iconTreatment, h, hb]
  · intro p₁ p₂ s row htop hicons hvis
    obtain ⟨item, box, title, icon⟩ := row
    rcases box with _ | box
    · simp [processRow]
    rcases box with _ | th
    · simp [processRow]
    rcases title with _ | t
    · simp [processRow]
    simp only [rowVisibility, rowTheme] at hvis
    rcases hvis with h | h | h <;>
      simp [processRow, visibilityStep, ← htop, ← hicons, h]

/-- Claim C5 witness: the visible-row characterization at a concrete
fully populated row with empty preferences, and the mode and color
independence at two preference maps that hide the same topic but
differ in their mode and color tables. -/
theorem claim_C5_witness :
    processRow emptyPref initState rowVisibleIcon =
      ⟨⟨⟨["row-item"], none⟩, some (some "Rumeurs"), some ⟨["topictitle"], none⟩,
        some ⟨["icon", "fa-file", "icon-lg"], none⟩⟩, initState, false⟩ ∧
    processRow prefHiddenA initState rowVisibleIcon =
      processRow prefHiddenB initState rowVisibleIcon := by
  constructor
  · exact (claim_C5.1 emptyPref initState ⟨["row-item"], none⟩ "Rumeurs"
      ⟨["topictitle"], none⟩ ⟨["icon", "fa-file", "icon-md"], none⟩
      (Or.inl rfl)).trans (by decide)
  · exact claim_C5.2 prefHiddenA prefHiddenB initState rowVisibleIcon rfl rfl
      (Or.inr (Or.inr (by decide)))

/-- Claim C6, code-bug evaluation.  The spec marks the status icon
optional and its treatment conditional on presence, but the code
dereferences it unconditionally (classList.replace at script.js:129
for every processed row, setAttribute at script.js:142 inside the
recognized highlight modes).  At a row with box, title and topic label
present but no icon element, processing raises a TypeError, leaving
the row untouched and the engine state unchanged; the same raise
happens on the highlight path through changeDisplay. -/
theorem claim_C6_eval :
    (processRow emptyPref initState rowNoIcon).error = true ∧
    (processRow emptyPref initState rowNoIcon).row = rowNoIcon ∧
    (processRow emptyPref initState rowNoIcon).state = initState ∧
    (processRow prefHighlightR initState rowNoIcon).error = true := by
  refine ⟨by decide, by decide, by decide, by decide⟩

/-- Claim C7: every row missing the box container, the thematic
anchor inside it, or the title element is skipped entirely: no
exception is raised, the row is returned unchanged, and the engine
state (and with it the rule registry) is untouched. -/
theorem claim_C7 (pref : Preferences) (s : StylerState) (row : Row)
    (h : row.box = none ∨ row.box = some none ∨ row.title = none) :
    processRow pref s row = ⟨row, s, false⟩ := by
  obtain ⟨item, box, title, icon⟩ := row
  rcases box with _ | box
  · simp [processRow]
  rcases box with _ | th
  · simp [processRow]
  rcases title with _ | t
  · simp [processRow]
  simp at h

/-- Claim C7 witness: the skip at a concrete row with no box
container. -/
theorem claim_C7_witness :
    processRow emptyPref initState rowNoBox = ⟨rowNoBox, initState, false⟩ :=
  claim_C7 emptyPref initState rowNoBox (Or.inl rfl)

/-- Claim C8: when every row of the tree resolves to visibility
visible or hidden (or is skipped), a successful application of the
styling pass leaves the engine state unchanged, and applying the pass
a second time to the resulting tree reproduces exactly the same rows
with the same class lists and does not mutate the rule registry. -/
theorem claim_C8 (pref : Preferences) (s : StylerState) (rows out : List Row)
    (sOut : StylerState)
    (hok : ∀ row ∈ rows, rowVisibility pref row = none ∨
      rowVisibility pref row = some "visible" ∨ rowVisibility pref row = some "hidden")
    (happ : applyRows pref s rows = (out, sOut, false)) :
    sOut = s ∧ applyRows pref s out = (out, s, false) := by
  apply applyRows_idem pref s rows out sOut ?_ happ
  intro row hr
  rcases hok row hr with h | h | h <;> simp [h]

/-- Claim C8 witness: the idempotence at a concrete two-row tree, one
hidden row and one skipped row. -/
theorem claim_C8_witness :
    applyRows prefHiddenA initState [rowVisibleIcon, rowNoBox] =
      (rowsHiddenOut, initState, false) ∧
    applyRows prefHiddenA initState rowsHiddenOut =
      (rowsHiddenOut, initState, false) := by
  have h1 : applyRows prefHiddenA initState [rowVisibleIcon, rowNoBox] =
      (rowsHiddenOut, initState, false) := by decide
  exact ⟨h1, (claim_C8 prefHiddenA initState [rowVisibleIcon, rowNoBox]
    rowsHiddenOut initState (by decide) h1).2⟩

/-- Claim C9: a preference-change event carrying a refreshRate change
from 5 to 15 produces exactly the effect trace of one alarm
replacement (clear then create with period 15): it contains exactly
one alarm creation with period 15 and, like the handler on every other
change record, no refresh invocation at all. -/
theorem claim_C9 :
    onStorageSyncChanged ⟨some ⟨some 5, 15⟩⟩ =
      [Effect.alarmClear "autoRefresh", Effect.alarmCreate "autoRefresh" 15] ∧
    (onStorageSyncChanged ⟨some ⟨some 5, 15⟩⟩).countP (isAlarmCreateWith 15) = 1 ∧
    (∀ changes : StorageChanges,
      (onStorageSyncChanged changes).countP isRefreshCall = 0) := by
  refine ⟨rfl, by decide, ?_⟩
  rintro ⟨rr⟩
  rcases rr with _ | ⟨o, nv⟩ <;>
    simp [onStorageSyncChanged, createOrUpdateAlarm, isRefreshCall]

/-- Claim C10: when the fetched page contains the badge element but
its text content trims to the empty string, parseCount yields the
unknown marker "X", exactly as for an absent element, and the badge
presented for it is the disconnected state (marker "X" on the gray
background) rather than an empty numeric count. -/
theorem claim_C10 :
    parseCount none = "X" ∧
    (∀ t : String, jsTrim t = "" → parseCount (some t) = "X" ∧
      updateBadge (some (parseCount (some t))) = ⟨"X", "#555", "#fff"⟩) := by
  refine ⟨rfl, ?_⟩
  intro t ht
  refine ⟨by simp [parseCount, ht], ?_⟩
  have hp : parseCount (some t) = "X" := by simp [parseCount, ht]
  rw [hp]
  decide

/-- Claim C10 witness: the whitespace-only text content. -/
theorem claim_C10_witness :
    parseCount (some "   ") = "X" ∧
    updateBadge (some (parseCount (some "   "))) = ⟨"X", "#555", "#fff"⟩ :=
  claim_C10.2 "   " (by decide)

end Casus
